import Mathlib

/-!
Verification of the kmonad-to-keyboard-layout-editor dump tool
(`src/kmonad_dump.py`) against its natural-language specification.

The program is a one-shot batch transformer: it extracts layer matrices
(`defsrc` / `deflayer`), a hardware section (keycap grid, colors grid,
options, label aliases, description) out of free-form text using
regular-expression searches, builds an in-memory keyboard model, and
renders a single output string for the keyboard-layout-editor raw-data
box.

This file shallowly embeds that pipeline: Python strings become Lean
`String` / `List Char`; the regular-expression searches of the source
(which use lazy `.+?` bodies, a `(?<!\\)` look-behind on the closing
parenthesis, and greedy `\s+` separators) are modelled by explicit
character scanners with the same backtracking order; Python dicts become
insertion-ordered association lists with overwrite-in-place insertion;
fatal `RuntimeError`s become `Except String`; the one console warning
(missing colors declaration) becomes an explicit `Bool`.
-/

/-! ## Basic character and string helpers -/

/-- The characters matched by Python's regex class `\s` (ASCII range),
which is also what `str.split()` / `str.isspace` treat as whitespace for
the ASCII inputs this tool processes. -/
def isWS (c : Char) : Bool :=
  c = ' ' ∨ c = '\t' ∨ c = '\n' ∨ c = '\r' ∨ c = '\x0b' ∨ c = '\x0c'

/-- Core of Python `str.split()` (split on whitespace runs, dropping
empty pieces); `cur` is the reversed current word. -/
def pySplitCore : List Char → List Char → List (List Char)
  | cur, [] => if cur.isEmpty then [] else [cur.reverse]
  | cur, c :: rest =>
    if isWS c then
      if cur.isEmpty then pySplitCore [] rest
      else cur.reverse :: pySplitCore [] rest
    else pySplitCore (c :: cur) rest

/-- Python `str.split()` with no argument. -/
def pySplit (s : String) : List String :=
  (pySplitCore [] s.toList).map String.mk

/-- Core of Python `str.splitlines()`; the inputs this tool processes
use `'\n'` line ends only, which is the case modelled here. -/
def pySplitlinesCore : List Char → List Char → List (List Char)
  | cur, [] => if cur.isEmpty then [] else [cur.reverse]
  | cur, c :: rest =>
    if c = '\n' then cur.reverse :: pySplitlinesCore [] rest
    else pySplitlinesCore (c :: cur) rest

/-- Python `str.splitlines()`. -/
def pySplitlines (s : String) : List String :=
  (pySplitlinesCore [] s.toList).map String.mk

/-- Python `str.isalpha()` on a single character, for the ASCII tokens
this tool processes. -/
def pyIsAlpha (c : Char) : Bool := c.isAlpha

/-- Python dict insertion `d[k] = v`: overwrite in place if the key is
present (keeping its position, as Python dicts do), else append. -/
def dictInsert {α : Type} (m : List (String × α)) (k : String) (v : α) :
    List (String × α) :=
  match m with
  | [] => [(k, v)]
  | (k', v') :: rest =>
    if k' = k then (k, v) :: rest else (k', v') :: dictInsert rest k v

/-- Python dict lookup `d.get(k)` / `d[k]`: the value of the unique
entry with the key (entries built by `dictInsert` have unique keys). -/
def dictGet {α : Type} (k : String) : List (String × α) → Option α
  | [] => none
  | (k', v) :: rest => if k = k' then some v else dictGet k rest

/-! ## The built-in alias table (`kmonad_aliases`, lines 29-87) -/

/-- The `kmonad_aliases` dictionary of the source, in source order. -/
def kmonadAliases : List (String × String) :=
  [("ret", "Return"), ("return", "Return"), ("ent", "Enter"),
   ("min", "-"),
   ("eql", "="),
   ("spc", "Space"),
   ("pgup", "⤒"),
   ("pgdn", "⤓"),
   ("ins", "Ins"),
   ("del", "Del"),
   ("volu", "🕪"),
   ("voldwn", "🕩"), ("vold", "🕩"),
   ("mute", "🕨"),
   ("brup", "🔆"), ("bru", "🔆"),
   ("brdown", "🔅"), ("brdwn", "🔅"), ("brdn", "🔅"),
   ("lalt", "Alt"), ("alt", "Alt"),
   ("ralt", "AltGr"),
   ("comp", "Cmp"), ("cmps", "Cmp"), ("cmp", "Cmp"),
   ("lshift", "Shift"), ("lshft", "Shift"), ("lsft", "Shift"),
   ("shft", "Shift"), ("sft", "Shift"), ("rshift", "Shift"),
   ("rshft", "Shift"), ("rsft", "Shift"),
   ("lctrl", "Ctrl"), ("lctl", "Ctrl"), ("ctl", "Ctrl"),
   ("rctrl", "Ctrl"), ("rctl", "Ctrl"),
   ("lmeta", "Meta"), ("lmet", "Meta"), ("met", "Meta"),
   ("rmeta", "Meta"), ("rmet", "Meta"),
   ("bks", "⌫"),
   ("bspc", "⌫"),
   ("caps", "🄰 Caps"),
   ("fwd", "⏭"),
   ("lft", "←"),
   ("rght", "→"),
   ("lbrc", "["),
   ("rbrc", "]"),
   ("scln", ";"),
   ("apos", "'"),
   ("grv", "`"),
   ("bksl", "\\\\"),
   ("comm", ","),
   ("kp/", "/"),
   ("kprt", "Enter"),
   ("kp+", "+"),
   ("kp*", "*"),
   ("kp-", "-"),
   ("kp.", "."),
   ("ssrq", "SysRq"),
   ("sys", "SysRq"),
   ("next", " ⏭"),
   ("pp", "⏯"),
   ("prev", "⏮"),
   ("up", "↑"),
   ("down", "↓"), ("dn", "↓"),
   ("f1", "F1"),
   ("f2", "F2"),
   ("f3", "F3"),
   ("f4", "F4"),
   ("f5", "F5"),
   ("f6", "F6"),
   ("f7", "F7"),
   ("f8", "F8"),
   ("f9", "F9"),
   ("f10", "F10"),
   ("f11", "F11"),
   ("f12", "F12")]

/-! ## The position map (`label_pos`, lines 100-105) -/

/-- The `label_pos` dictionary: matrix position `(r, c)` in the 4x3
keycap grid to one of the 12 keyboard-layout-editor label slots.  The
source dict holds exactly these 12 keys and is only ever accessed
inside the 4x3 bounds guaranteed by the shape check of
`KeyCap.__init__`; the catch-all row is never reached there. -/
def label_pos (r c : Nat) : Nat :=
  match r, c with
  | 0, 0 => 0 | 0, 1 => 8  | 0, 2 => 2
  | 1, 0 => 6 | 1, 1 => 9  | 1, 2 => 7
  | 2, 0 => 1 | 2, 1 => 10 | 2, 2 => 3
  | 3, 0 => 4 | 3, 1 => 11 | 3, 2 => 5
  | _, _ => 0

/-! ## Scanner: the regular-expression searches of the source

Every section pattern of the source has the form
`[(] \s* WORD ... \s+ (body) CLOSE` searched leftmost-first over the
text.  `\s*`/`\s+` are greedy with give-back, bodies are lazy (`.+?` or
`.*?` or a lazy character class), and `CLOSE` is `[)]`, optionally
guarded by the look-behind `(?<!\\)` (an escaped closing parenthesis
does not terminate the body).  The scanners below reproduce the
backtracking order of the Python `re` engine on these patterns. -/

/-- Match a literal word at the head of the character list, returning
the remainder. -/
def litAfter? (w : List Char) (s : List Char) : Option (List Char) :=
  match w, s with
  | [], s => some s
  | _ :: _, [] => none
  | a :: w', c :: s' => if a = c then litAfter? w' s' else none

/-- Length of the leading whitespace run. -/
def wsRun : List Char → Nat
  | [] => 0
  | c :: rest => if isWS c then wsRun rest + 1 else 0

/-- Drop the leading whitespace run (the `\s*` of the patterns; the
literal word after it starts with a non-whitespace character, so the
greedy `\s*` always consumes exactly this run). -/
def dropWS : List Char → List Char
  | [] => []
  | c :: rest => if isWS c then dropWS rest else c :: rest

/-- The lazy body + closing parenthesis of `(?P<data>.+?)[)]` (and of
`.*?`, via `minSkip = 0`): the body runs to the first `')'` that

  * comes after at least `minSkip` body characters (`.+?` needs one), and
  * when `esc = true`, is not preceded by a backslash — the
    `(?<!\\)[)]` look-behind of `KeyCap.Pattern`,
    `KMonadConfig.LayoutSection` and the description pattern.

`prev` is the character just before the body (the last separator
whitespace), which is what the look-behind sees when the body is empty.
Returns the body and the remainder after the `')'`. -/
def takeToClose (esc : Bool) : Nat → Char → List Char →
    Option (List Char × List Char)
  | minSkip, prev, c :: rest =>
    if c = ')' ∧ (esc = false ∨ prev ≠ '\\') ∧ minSkip = 0 then
      some ([], rest)
    else
      match takeToClose esc (minSkip - 1) c rest with
      | some (b, r) => some (c :: b, r)
      | none => none
  | _, _, [] => none

/-- The lazy character-class body of `KeyCap.Colors`:
`(?P<data>[#a-fA-F0-9\s]+?)[)]` — the body must stay inside the class
and runs to the first `')'` after at least one body character. -/
def takeColorBody : Nat → List Char → Option (List Char × List Char)
  | minSkip, c :: rest =>
    if c = ')' ∧ minSkip = 0 then some ([], rest)
    else if c = '#' ∨ c.isDigit ∨ ('a' ≤ c ∧ c ≤ 'f') ∨ ('A' ≤ c ∧ c ≤ 'F') ∨ isWS c then
      match takeColorBody (minSkip - 1) rest with
      | some (b, r) => some (c :: b, r)
      | none => none
    else none
  | _, [] => none

/-- The `{.+?}` body of `Options.Pattern` followed by `[)]`: after the
opening brace, the body runs to the first `'\x7d'` that comes after at
least one inner character *and* is immediately followed by `')'` (the
lazy `.+?` swallows any earlier closing brace the engine rejects).
Returns the braced body and the remainder after the `')'`. -/
def takeBraceBody : Nat → List Char → Option (List Char × List Char)
  | n, c :: rest =>
    if c = '\x7d' ∧ 1 ≤ n then
      match rest with
      | ')' :: r2 => some ([c], r2)
      | _ =>
        match takeBraceBody (n + 1) rest with
        | some (b, r) => some (c :: b, r)
        | none => none
    else
      match takeBraceBody (n + 1) rest with
      | some (b, r) => some (c :: b, r)
      | none => none
  | _, [] => none

/-- `{.+?}` with the leading brace. -/
def takeBrace (s : List Char) : Option (List Char × List Char) :=
  match s with
  | c :: rest =>
    if c = '\x7b' then
      match takeBraceBody 0 rest with
      | some (b, r) => some (c :: b, r)
      | none => none
    else none
  | [] => none

/-- The greedy-with-give-back `\s+` separator followed by a lazy body:
try the longest whitespace run first (`n` is the run length still being
tried), handing the body scanner the character preceding the body (for
the look-behind) and the body's start.  This is the backtracking order
of the `re` engine on `\s+(?P<data>...)`. -/
def tryWs (tk : Char → List Char → Option (List Char × List Char))
    (s : List Char) : Nat → Option (List Char × List Char)
  | 0 => none
  | n + 1 =>
    match tk (s.getD n ' ') (s.drop (n + 1)) with
    | some r => some r
    | none => tryWs tk s n

/-- `\s+` then a lazy body: greedy separator first, backtracking one
whitespace character at a time. -/
def wsThen (tk : Char → List Char → Option (List Char × List Char))
    (s : List Char) : Option (List Char × List Char) :=
  tryWs tk s (wsRun s)

/-! ## Section matchers (one per source pattern) -/

/-- Attempt `KeyCap.Pattern` (lines 165-170),
`[(]\s*keycap\s+(?P<data>.+?)(?<!\\)[)]`, anchored at the head of `s`.
Returns the body and the remainder after the closing parenthesis. -/
def matchKeycapAt (s : List Char) : Option (List Char × List Char) :=
  match s with
  | '(' :: rest =>
    match litAfter? "keycap".toList (dropWS rest) with
    | some after => wsThen (fun prev t => takeToClose true 1 prev t) after
    | none => none
  | _ => none

/-- Attempt `KeyCap.Colors` (lines 172-177),
`[(]\s*colors\s+(?P<data>[#a-fA-F0-9\s]+?)[)]`, anchored at the head. -/
def matchColorsAt (s : List Char) : Option (List Char × List Char) :=
  match s with
  | '(' :: rest =>
    match litAfter? "colors".toList (dropWS rest) with
    | some after => wsThen (fun _ t => takeColorBody 1 t) after
    | none => none
  | _ => none

/-- Attempt the description pattern (line 298),
`[(]\s*description\s+(?P<description>.*?)(?<!\\)[)]`, anchored at the
head (note the `.*?`: the body may be empty). -/
def matchDescriptionAt (s : List Char) : Option (List Char × List Char) :=
  match s with
  | '(' :: rest =>
    match litAfter? "description".toList (dropWS rest) with
    | some after => wsThen (fun prev t => takeToClose true 0 prev t) after
    | none => none
  | _ => none

/-- The `(?P<name>[^\s)]+)` group: a maximal nonempty run of characters
that are neither whitespace nor `')'`.  The following `\s+` cannot match
after a shorter run (the next character would still be in the class),
so the regex engine accepts only the maximal run. -/
def takeName (s : List Char) : Option (List Char × List Char) :=
  let nm := s.takeWhile (fun c => ¬ isWS c ∧ c ≠ ')')
  if nm.isEmpty then none else some (nm, s.drop nm.length)

/-- Attempt the label pattern of `import_labels` (lines 283-290),
`[(]\s*label\s+(?P<name>[^\s)]+)\s+(?P<data>.+?)[)]` (plain closing
parenthesis, no look-behind), anchored at the head. -/
def matchLabelAt (s : List Char) :
    Option (String × String × List Char) :=
  match s with
  | '(' :: rest =>
    match litAfter? "label".toList (dropWS rest) with
    | some after =>
      let k := wsRun after
      if k = 0 then none else
      match takeName (after.drop k) with
      | some (nm, s2) =>
        match wsThen (fun prev t => takeToClose false 1 prev t) s2 with
        | some (d, rem) => some (String.mk nm, String.mk d, rem)
        | none => none
      | none => none
    | none => none
  | _ => none

/-- Attempt `Options.Pattern` (lines 131-138),
`[(]\s*options\s+(?P<name>[^\s)]+)\s+(?P<data>{.+?})[)]`, anchored at
the head.  The body starts with a literal `'\x7b'` (not whitespace), so
the greedy `\s+` before it consumes exactly the whitespace run. -/
def matchOptionsAt (s : List Char) :
    Option (String × String × List Char) :=
  match s with
  | '(' :: rest =>
    match litAfter? "options".toList (dropWS rest) with
    | some after =>
      let k := wsRun after
      if k = 0 then none else
      match takeName (after.drop k) with
      | some (nm, s2) =>
        let k2 := wsRun s2
        if k2 = 0 then none else
        match takeBrace (s2.drop k2) with
        | some (d, rem) => some (String.mk nm, String.mk d, rem)
        | none => none
      | none => none
    | none => none
  | _ => none

/-- Attempt `KMonadConfig.LayoutSection` (lines 336-341),
`[(]\s*((?P<src>defsrc)|(deflayer\s+(?P<layer>\S+)))\s+(?P<data>.+?)(?<!\\)[)]`,
anchored at the head.  Returns `(layer-name?, body, remainder)` with
`none` for the `defsrc` branch.  The two alternatives diverge at their
fourth letter, so a head that matches the literal `defsrc` can never
back off into the `deflayer` branch (and vice versa). -/
def matchLayoutAt (s : List Char) :
    Option (Option String × String × List Char) :=
  match s with
  | '(' :: rest =>
    let r1 := dropWS rest
    match litAfter? "defsrc".toList r1 with
    | some after =>
      match wsThen (fun prev t => takeToClose true 1 prev t) after with
      | some (d, rem) => some (none, String.mk d, rem)
      | none => none
    | none =>
      match litAfter? "deflayer".toList r1 with
      | some after =>
        let k := wsRun after
        if k = 0 then none else
        -- `(?P<layer>\S+)`: a maximal nonempty run of non-whitespace.
        let nm := (after.drop k).takeWhile (fun c => ¬ isWS c)
        if nm.isEmpty then none else
        match wsThen (fun prev t => takeToClose true 1 prev t)
            ((after.drop k).drop nm.length) with
        | some (d, rem) => some (some (String.mk nm), String.mk d, rem)
        | none => none
      | none => none
  | _ => none

/-- `re.search`: try the pattern at every position, leftmost first. -/
def searchAt {α : Type}
    (m : List Char → Option α) : List Char → Option α
  | [] => none
  | c :: rest =>
    match m (c :: rest) with
    | some r => some r
    | none => searchAt m rest

/-- `re.finditer`: repeated non-overlapping leftmost search; a match
resumes the scan after its own end.  `fuel` bounds the recursion; every
step strictly shortens the text, so `text.length` fuel is enough. -/
def finditerAux {α : Type}
    (m : List Char → Option (α × List Char)) :
    Nat → List Char → List α
  | 0, _ => []
  | _, [] => []
  | fuel + 1, c :: rest =>
    match m (c :: rest) with
    | some (a, rem) => a :: finditerAux m fuel rem
    | none => finditerAux m fuel rest

/-- `re.finditer` over a whole text. -/
def finditer {α : Type}
    (m : List Char → Option (α × List Char)) (s : List Char) : List α :=
  finditerAux m s.length s

/-- First occurrence of a literal marker; returns the remainder after
it (used for the `<hardware-layout>` delimiters of
`HardwareLayout.Pattern`, lines 266-270). -/
def searchMarker (marker : List Char) : List Char → Option (List Char)
  | [] => none
  | c :: rest =>
    match litAfter? marker (c :: rest) with
    | some r => some r
    | none => searchMarker marker rest

/-- The lazy `(?P<data>.+?)` body up to the first end marker, with at
least one body character.  Returns the body (the remainder after the
end marker is irrelevant to the source, which keeps only the group). -/
def takeUntilMarker (marker : List Char) :
    Nat → List Char → Option (List Char)
  | minSkip, c :: rest =>
    if minSkip = 0 ∧ (litAfter? marker (c :: rest)).isSome then some []
    else
      match takeUntilMarker marker (minSkip - 1) rest with
      | some b => some (c :: b)
      | none => none
  | _, [] => none

/-! ## KeyCap model (`class KeyCap`, lines 163-242) -/

/-- The shared row parsing of the source:
`[r.split() for r in data.splitlines()]` (lines 184-185, 191, 313-314). -/
def parseRows (s : String) : List (List String) :=
  (pySplitlines s).map pySplit

/-- The shape check of lines 186 and 192:
`len(rows) == 4 and all(len(r) == 3 for r in rows)`. -/
def shapeOk (rows : List (List String)) : Bool :=
  rows.length = 4 ∧ rows.all (fun r => r.length = 3)

/-- The all-black fallback colors grid (lines 196-201). -/
def defaultColors : List (List String) :=
  [["#000000", "#000000", "#000000"],
   ["#000000", "#000000", "#000000"],
   ["#000000", "#000000", "#000000"],
   ["#000000", "#000000", "#000000"]]

/-- The row-major enumeration of the nested loop of lines 205-209: for
every grid cell `(r, c)` whose token is not `'_'`, the triple
`(token, label_pos (r, c), colors[r][c])`, in loop order. -/
def cellList (rows colors : List (List String)) :
    List (String × Nat × String) :=
  (rows.enum.map (fun rc =>
    (rc.2.enum.filterMap (fun cc =>
      if cc.2 ≠ "_" then
        some (cc.2, label_pos rc.1 cc.1, ((colors.getD rc.1 []).getD cc.1 ""))
      else none)))).flatten

/-- The derived maps of `KeyCap.__init__` (lines 203-209):
`layermap[col] = label_pos[(r, c)]` and `colormap[col] = colors[r][c]`
for every non-`'_'` cell, in row-major order with Python-dict
overwrite. -/
def mkMaps (rows colors : List (List String)) :
    List (String × Nat) × List (String × String) :=
  (cellList rows colors).foldl
    (fun maps cell =>
      (dictInsert maps.1 cell.1 cell.2.1, dictInsert maps.2 cell.1 cell.2.2))
    ([], [])

/-- The state of a constructed `KeyCap` object. -/
structure KeyCapT where
  rows : List (List String)
  layermap : List (String × Nat)
  colormap : List (String × String)
  deriving Repr, DecidableEq

/-- Error message of line 182. -/
def keycapMissingMsg : String :=
  "Keycap definition not found. ie (keycap ...)"

/-- Error message of line 187. -/
def keycapShapeMsg : String :=
  "Invalid keycap definition. Mandatory format for (keycap ...): 4 rows of 3 columns, empty places marked with '_'"

/-- Error message of line 193. -/
def colorsShapeMsg : String :=
  "Invalid keycap colors definition. Mandatory format for (colors ...): 4 rows of 3 columns if html hex color codes. ie. colors(#000000 ...)"

/-- `KeyCap.__init__(data)` (lines 179-209).  The returned `Bool` is
`true` when the fallback warning of line 195 was printed (colors
declaration absent). -/
def KeyCap.init (data : String) : Except String (KeyCapT × Bool) :=
  match searchAt matchKeycapAt data.toList with
  | none => .error keycapMissingMsg
  | some (body, _) =>
    let rows := parseRows (String.mk body)
    if shapeOk rows = false then .error keycapShapeMsg
    else
      match searchAt matchColorsAt data.toList with
      | some (cbody, _) =>
        let colors := parseRows (String.mk cbody)
        if shapeOk colors = false then .error colorsShapeMsg
        else
          let maps := mkMaps rows colors
          .ok (⟨rows, maps.1, maps.2⟩, false)
      | none =>
        let maps := mkMaps rows defaultColors
        .ok (⟨rows, maps.1, maps.2⟩, true)

/-- `KeyCap.translate(key)` (lines 233-239): alias lookup in the
(process-wide) alias table, then upper-casing of a single alphabetic
character, then the `XX` sentinel — the last two applied to the result
of the alias substitution. -/
def kcTranslate (aliases : List (String × String)) (key : String) : String :=
  let key := (dictGet key aliases).getD key
  if key.length = 1 ∧ key.toList.all pyIsAlpha then
    String.mk (key.toList.map Char.toUpper)
  else if key = "XX" then "" else key

/-- The per-slot text of `KeyCap.label` (lines 219-222): an exactly
escaped backslash or quote is kept verbatim, anything else has all its
backslashes removed. -/
def procKey (aliases : List (String × String)) (key : String) : String :=
  let k := kcTranslate aliases key
  if k = "\\\\" ∨ k = "\\\"" then k
  else String.mk (k.toList.filter (fun c => c ≠ '\\'))

/-- One iteration of the loop of `KeyCap.label` (lines 214-222): a
`(layer, token)` item of the `keys` dict updates slot
`layermap[layer]` when the token is truthy and the *layer name* has a
slot; otherwise the slot array is unchanged. -/
def labStep (kc : KeyCapT) (aliases : List (String × String))
    (lab : List String) (pair : String × Option String) : List String :=
  match pair.2 with
  | some key =>
    if key ≠ "" then
      match dictGet pair.1 kc.layermap with
      | some p => lab.set p (procKey aliases key)
      | none => lab
    else lab
  | none => lab

/-- The 12-slot array built by `KeyCap.label` before joining. -/
def labSlots (kc : KeyCapT) (aliases : List (String × String))
    (keys : List (String × Option String)) : List String :=
  keys.foldl (labStep kc aliases) (List.replicate 12 "")

/-- The trailing trim of line 223, `re.sub(r'(\\n)+$', '', content)`:
remove the maximal trailing run of literal `\n` two-character units. -/
def trimTrailingUnitsRev : List Char → List Char
  | 'n' :: '\\' :: rest => trimTrailingUnitsRev rest
  | l => l

/-- `re.sub(r'(\\n)+$', '', s)`. -/
def trimTrailingUnits (s : String) : String :=
  String.mk (trimTrailingUnitsRev s.toList.reverse).reverse

/-- `KeyCap.label(keys)` (lines 212-224): fill the 12 slots from the
`keys` dict (layer name to token-at-this-physical-key), join with
literal `\n`, trim trailing empties, wrap in double quotes. -/
def kcLabel (kc : KeyCapT) (aliases : List (String × String))
    (keys : List (String × Option String)) : String :=
  "\"" ++ trimTrailingUnits
    (String.intercalate "\\n" (labSlots kc aliases keys)) ++ "\""

/-- The trailing trim of line 230, `.rstrip('\\n')`: strip all trailing
characters belonging to the set `{'\\', 'n'}`. -/
def rstripBN (s : String) : String :=
  String.mk (s.toList.reverse.dropWhile (fun c => c = '\\' ∨ c = 'n')).reverse

/-- `KeyCap.get_colors()` (lines 226-231). -/
def getColors (kc : KeyCapT) : String :=
  let lab := kc.layermap.foldl
    (fun lab lp => lab.set lp.2 ((dictGet lp.1 kc.colormap).getD ""))
    (List.replicate 12 "")
  "\"" ++ rstripBN (String.intercalate "\\n" lab) ++ "\""

/-! ## Options index (`class Options`, lines 129-146) -/

/-- `Options.__init__` (lines 140-143): index every `(options ...)`
declaration, later duplicates overwriting earlier ones. -/
def optionsInit (data : String) : List (String × String) :=
  (finditer (fun s => (matchOptionsAt s).map (fun r => ((r.1, r.2.1), r.2.2)))
      data.toList).foldl
    (fun m p => dictInsert m p.1 p.2) []

/-- `Options.__call__(name)` (lines 145-146). -/
def optionsGet (index : List (String × String)) (name : String) :
    Option String :=
  dictGet name index

/-! ## Hardware layout (`class HardwareLayout`, lines 264-302) -/

/-- Error message of line 275. -/
def hardwareMissingMsg : String :=
  "Hardware layout section ot found. ie. <hardware-layout>...</hardware-layout>"

/-- `HardwareLayout.Pattern` search (lines 266-275):
`<hardware-layout>(?P<data>.+?)</hardware-layout>` with `re.DOTALL`. -/
def searchHardware (text : String) : Option String :=
  match searchMarker "<hardware-layout>".toList text.toList with
  | some afterStart =>
    (takeUntilMarker "</hardware-layout>".toList 1 afterStart).map String.mk
  | none => none

/-- The `(label <name> <text>)` declarations found by the `finditer` of
`import_labels` (line 291), in parse order. -/
def labelDecls (data : String) : List (String × String) :=
  finditer (fun s => (matchLabelAt s).map (fun r => ((r.1, r.2.1), r.2.2)))
    data.toList

/-- `HardwareLayout.import_labels(data)` (lines 282-292): every
`(label <name> <text>)` declaration inserts `name -> text` into the
process-wide alias table, in parse order. -/
def importLabels (aliases : List (String × String)) (data : String) :
    List (String × String) :=
  (labelDecls data).foldl (fun m p => dictInsert m p.1 p.2) aliases

/-- `HardwareLayout.get_description(data)` (lines 297-302). -/
def getDescription (data : String) : String :=
  match searchAt matchDescriptionAt data.toList with
  | some (d, _) => (String.mk d).replace "\n" "<br />"
  | none => ""

/-- The state of a constructed `HardwareLayout` object. -/
structure HardwareT where
  keycap : KeyCapT
  options : List (String × String)
  description : String
  deriving Repr, DecidableEq

/-- `HardwareLayout.__init__(data)` (lines 272-280): locate the section,
build the keycap (possibly warning about missing colors), the options
index and the description, and extend the alias table with the `label`
declarations.  Returns the object, the extended alias table and the
colors warning flag. -/
def HardwareLayout.init (aliases : List (String × String)) (text : String) :
    Except String (HardwareT × List (String × String) × Bool) :=
  match searchHardware text with
  | none => .error hardwareMissingMsg
  | some data =>
    match KeyCap.init data with
    | .error e => .error e
    | .ok (kc, warned) =>
      let opts := optionsInit data
      let desc := getDescription data
      let aliases2 := importLabels aliases data
      .ok (⟨kc, opts, desc⟩, aliases2, warned)

/-! ## Layer model (`class KMonadLayer`, lines 309-327) -/

/-- `KMonadLayer.__call__(row, col)` (lines 322-327): the token at the
matrix position, or `none` when the access is out of range (the
`except` branch) or the token is the empty marker `'_'`. -/
def layerCall (rows : List (List String)) (row col : Nat) : Option String :=
  match rows[row]? with
  | none => none
  | some r =>
    match r[col]? with
    | none => none
    | some v => if v = "_" then none else some v

/-! ## Config builder (`class KMonadConfig`, lines 334-386) -/

/-- The state of a constructed `KMonadConfig` object (without the
rendered `layout`, which is `buildOut` below; `__init__` computes
`self.layout = self.build()` as its last step).  `name` is
`str(Path(file).absolute())` — path resolution is an external
collaborator, so the model takes the resolved name as input.
`aliases` is the process-wide alias table after `HardwareLayout`
construction extended it, the table every later `translate` call
reads. -/
structure KConfig where
  layers : List (String × List (List String))
  first : Option String
  hardware : HardwareT
  aliases : List (String × String)
  name : String
  deriving Repr, DecidableEq

/-- `KMonadConfig.keycap(row, col, key)` (lines 381-383): collect, from
every declared layer in insertion order, the token bound at
`(row, col)`, and delegate to `KeyCap.label`. -/
def kcAt (cfg : KConfig) (row col : Nat) : String :=
  kcLabel cfg.hardware.keycap cfg.aliases
    (cfg.layers.map (fun l => (l.1, layerCall l.2 row col)))

/-- `KMonadConfig.build()` (lines 357-379): header entry with the
default per-key colors, one bracketed row group per `defsrc` row (each
key preceded by its options fragment when one exists), and the footer
entry naming the source file and hardware description. -/
def buildOut (cfg : KConfig) : String :=
  let hw := (dictGet "defsrc" cfg.layers).getD []
  let header :=
    "[\x7ba:0, y:-1, t:" ++ getColors cfg.hardware.keycap ++ "\x7d]"
  let rowStrs := hw.enum.map (fun rrow =>
    let cells := (rrow.2.enum.map (fun ck =>
      (match optionsGet cfg.hardware.options ck.2 with
       | some opt => if opt ≠ "" then [opt] else []
       | none => []) ++ [kcAt cfg rrow.1 ck.1])).flatten
    "[" ++ String.intercalate "," cells ++ "]")
  let footer :=
    "[\x7bf:4,w:20,h:3,d:true,t:\"#333333\"\x7d,\"" ++ cfg.name ++
      "<br /><br />" ++ cfg.hardware.description ++ "\"]"
  String.intercalate ",\n" (header :: (rowStrs ++ [footer]))

/-- `KMonadConfig.__init__` (lines 343-355): parse every layer section
(`defsrc` or named `deflayer`) with `finditer`, keep the first overlay
layer's name, build the hardware layout (extending the alias table),
and render.  A missing `defsrc` layer makes `self.build()` raise
`KeyError('defsrc')` inside `__init__`, so construction fails; the
model returns that as an error value.  Returns the constructed state
and the colors warning flag; the rendered layout is `buildOut` of the
state. -/
def KMonadConfig.init (fileName text : String) :
    Except String (KConfig × Bool) :=
  let secs := finditer
    (fun s => (matchLayoutAt s).map (fun r => ((r.1, r.2.1), r.2.2)))
    text.toList
  let layers := secs.foldl
    (fun m s => dictInsert m (s.1.getD "defsrc") (parseRows s.2)) []
  let first := secs.foldl
    (fun a s => match a with | some _ => a | none => s.1) none
  match HardwareLayout.init kmonadAliases text with
  | .error e => .error e
  | .ok (hw, aliases2, warned) =>
    match dictGet "defsrc" layers with
    | none => .error "'defsrc'"
    | some _ =>
      .ok (⟨layers, first, hw, aliases2, fileName⟩, warned)

/-- `__init__` including the rendering step `self.layout = self.build()`
(line 355): the layout string the program prints on success. -/
def KMonadConfig.layout (fileName text : String) : Except String String :=
  (KMonadConfig.init fileName text).map (fun p => buildOut p.1)

/-! ## Specification-side definitions (for refinement claims)

The two definitions below follow the *specification's words* (not the
source); the claims compare them with the source-derived definitions
above. -/

/-- The translation rules exactly as the specification states them
(spec 4.1 / claim C3): an explicit alias entry is substituted *and
returned*; only in the absence of an entry do the single-letter
upper-casing and `XX` rules apply. -/
def kcTranslateSpec (aliases : List (String × String)) (key : String) :
    String :=
  match dictGet key aliases with
  | some v => v
  | none =>
    if key.length = 1 ∧ key.toList.all pyIsAlpha then
      String.mk (key.toList.map Char.toUpper)
    else if key = "XX" then "" else key

/-- The single-`(layer, token)` placement exactly as the specification
states it (spec 4.4 / claim C1): the slot is looked up by the *token*
in the token-to-slot map, and tokens not present in the keycap grid are
silently skipped. -/
def labStepSpec (kc : KeyCapT) (aliases : List (String × String))
    (lab : List String) (pair : String × Option String) : List String :=
  match pair.2 with
  | some key =>
    if key ≠ "" then
      match dictGet key kc.layermap with
      | some p => lab.set p (procKey aliases key)
      | none => lab
    else lab
  | none => lab

/-- `KeyCap.label` as the specification describes it: like `kcLabel`
but placing each token at the slot recorded for the *token*. -/
def kcLabelSpec (kc : KeyCapT) (aliases : List (String × String))
    (keys : List (String × Option String)) : String :=
  "\"" ++ trimTrailingUnits
    (String.intercalate "\\n"
      (keys.foldl (labStepSpec kc aliases) (List.replicate 12 ""))) ++ "\""

/-- The alias substitution of `translate` followed by the two
post-substitution rules it applies to the substituted value
(lines 234-239 split at line 234). -/
def postRules (v : String) : String :=
  if v.length = 1 ∧ v.toList.all pyIsAlpha then
    String.mk (v.toList.map Char.toUpper)
  else if v = "XX" then "" else v

/-! ## Helper lemmas: association-list maps built by overwriting -/

/-- Looking a key up after a Python-dict insertion. -/
theorem dictGet_dictInsert {α : Type} (m : List (String × α))
    (k k' : String) (v : α) :
    dictGet k (dictInsert m k' v) =
      if k = k' then some v else dictGet k m := by
  induction m with
  | nil =>
    by_cases h : k = k' <;> simp [dictInsert, dictGet, h]
  | cons hd t ih =>
    obtain ⟨k2, v2⟩ := hd
    by_cases h2 : k2 = k' <;> by_cases h : k = k2 <;>
      simp_all [dictInsert, dictGet]

/-- Looking a key up in a map built by folding Python-dict insertions
over a sequence of entries: the *last* entry with that key wins, and
absent that the initial map decides. -/
theorem dictGet_foldl_dictInsert {α β : Type} (key : β → String)
    (val : β → α) (l : List β) (init : List (String × α)) (k : String) :
    dictGet k (l.foldl (fun m p => dictInsert m (key p) (val p)) init) =
      (l.reverse.find? (fun p => key p = k)).elim
        (dictGet k init) (fun p => some (val p)) := by
  induction l generalizing init with
  | nil => simp
  | cons hd t ih =>
    simp only [List.foldl_cons, List.reverse_cons]
    rw [ih, List.find?_append]
    rcases hf : t.reverse.find? (fun p => decide (key p = k)) with _ | p
    · simp only [Option.none_or]
      by_cases hkk : key hd = k
      · rw [List.find?_cons_of_pos _ (by simp [hkk])]
        simp [dictGet_dictInsert, hkk]
      · rw [List.find?_cons_of_neg _ (by simp [hkk]), List.find?_nil]
        rw [dictGet_dictInsert, if_neg (fun h : k = key hd => hkk h.symm)]
    · simp

/-! ## Claim C3: the translate rules -/

/-- C3, counterexample.  The claim states the rules are applied *in
order* with an explicit alias entry "substituted (and returned)".  But
`translate` (lines 233-239) applies the single-letter upper-casing and
the `XX` rule to the *result* of the substitution.  With the reachable
alias table produced by the label declaration `(label foo x)` (the
claimed behaviour of `import_labels`), the source returns `"X"` for
token `"foo"` while the claimed rule order returns the entry `"x"`
unchanged. -/
theorem c3_rule_order_counterexample :
    kcTranslate (importLabels kmonadAliases "(label foo x)") "foo" = "X" ∧
    kcTranslateSpec (importLabels kmonadAliases "(label foo x)") "foo" = "x" ∧
    ("X" : String) ≠ "x" :=
  ⟨rfl, rfl, by decide⟩

/-- C3, amended: `translate` is total over every string input (it is a
Lean function) and applies the alias substitution *first*; the
single-alphabetic-character upper-casing and the `XX`-to-empty rules
are then applied to the substituted value (so an alias entry is
returned unchanged only when it is not itself a single alphabetic
character or `XX`); for a token without an alias entry the rules
coincide with the claimed order.  The three given examples hold on the
built-in table. -/
theorem c3_translate_rules :
    (∀ aliases key, kcTranslate aliases key =
        postRules ((dictGet key aliases).getD key)) ∧
    (∀ aliases key, dictGet key aliases = none →
        kcTranslate aliases key = kcTranslateSpec aliases key) ∧
    kcTranslate kmonadAliases "a" = "A" ∧
    kcTranslate kmonadAliases "XX" = "" ∧
    kcTranslate kmonadAliases "unmappedtoken" = "unmappedtoken" := by
  refine ⟨fun aliases key => rfl, fun aliases key h => ?_, rfl, rfl, rfl⟩
  unfold kcTranslate kcTranslateSpec
  rw [h]
  simp

/-- C3, amended, witnessing the `dictGet _ = none` hypothesis of the
second conjunct at a concrete input. -/
theorem c3_translate_rules_witness :
    dictGet "qq" kmonadAliases = (none : Option String) ∧
    kcTranslate kmonadAliases "qq" = kcTranslateSpec kmonadAliases "qq" :=
  ⟨by decide, c3_translate_rules.2.1 kmonadAliases "qq" (by decide)⟩

/-! ## Claim C6: layer token access -/

/-- C6: `KMonadLayer.__call__(row, col)` returns the token stored at
the position; it returns `None` when the access is out of range of the
layer's matrix (the caught `IndexError`) or when the stored token is
the empty marker `'_'`; being a total Lean function, it never raises on
out-of-range access. -/
theorem c6_tokenAt (rows : List (List String)) (row col : Nat) :
    (rows[row]?.bind (fun r => r[col]?) = none →
      layerCall rows row col = none) ∧
    (∀ t, rows[row]?.bind (fun r => r[col]?) = some t →
      layerCall rows row col = if t = "_" then none else some t) := by
  constructor
  · intro h
    cases hr : rows[row]? with
    | none => simp [layerCall, hr]
    | some r =>
      cases hc : r[col]? with
      | none => simp [layerCall, hr, hc]
      | some v => rw [hr] at h; simp [hc] at h
  · intro t h
    cases hr : rows[row]? with
    | none => rw [hr] at h; simp at h
    | some r =>
      rw [hr] at h
      simp only [Option.some_bind] at h
      simp [layerCall, hr, h]

/-- C6, witness: both hypotheses discharged at concrete inputs — an
out-of-range row, the empty marker, and a real token. -/
theorem c6_tokenAt_witness :
    layerCall [["_", "b"]] 5 0 = none ∧
    layerCall [["_", "b"]] 0 0 = none ∧
    layerCall [["_", "b"]] 0 1 = some "b" := by
  refine ⟨(c6_tokenAt [["_", "b"]] 5 0).1 (by decide), ?_, ?_⟩
  · have h := (c6_tokenAt [["_", "b"]] 0 0).2 "_" (by decide)
    simpa using h
  · have h := (c6_tokenAt [["_", "b"]] 0 1).2 "b" (by decide)
    simpa using h

/-! ## Claim C9: deterministic rendering -/

/-- C9: rendering is deterministic over the parsed model.  In the
source, `build` (lines 357-379) and everything it calls (`label`,
`get_colors`, `translate`, `Options.__call__`, `KMonadLayer.__call__`)
only *read* the model and the alias table — no attribute or global is
assigned after construction — so the embedding types rendering as a
pure function of the constructed state, and two invocations with no
mutation in between are definitionally the same string. -/
theorem c9_render_deterministic (cfg : KConfig) :
    buildOut cfg = buildOut cfg := rfl

/-! ## Claim C8: escaped closing parentheses in bodies -/

/-- Unfolding step of the close scanner on a non-closing character. -/
theorem takeToClose_cons_skip (esc : Bool) (m : Nat) (prev c : Char)
    (rest : List Char)
    (h : ¬(c = ')' ∧ (esc = false ∨ prev ≠ '\\') ∧ m = 0)) :
    takeToClose esc m prev (c :: rest) =
      (takeToClose esc (m - 1) c rest).map (fun p => (c :: p.1, p.2)) := by
  rw [takeToClose, if_neg h]
  rcases takeToClose esc (m - 1) c rest with _ | ⟨b, r⟩ <;> simp

/-- Unfolding step of the close scanner on an accepted `')'`. -/
theorem takeToClose_cons_close (esc : Bool) (prev : Char) (rest : List Char)
    (h : esc = false ∨ prev ≠ '\\') :
    takeToClose esc 0 prev (')' :: rest) = some ([], rest) := by
  rw [takeToClose, if_pos ⟨rfl, h, rfl⟩]

/-- The close scanner walks over a parenthesis-free chunk unchanged,
threading the look-behind character and the remaining minimum body
length. -/
theorem takeToClose_append_free (esc : Bool) (a : List Char) :
    ∀ (m : Nat) (prev : Char) (s : List Char), ')' ∉ a →
    takeToClose esc m prev (a ++ s) =
      (takeToClose esc (m - a.length) (a.getLastD prev) s).map
        (fun p => (a ++ p.1, p.2)) := by
  induction a with
  | nil =>
    intro m prev s _
    simp only [List.nil_append, List.length_nil, Nat.sub_zero,
      List.getLastD_nil]
    rcases takeToClose esc m prev s with _ | ⟨b, r⟩ <;> simp
  | cons c t ih =>
    intro m prev s hna
    have hc : c ≠ ')' := fun h => hna (h ▸ List.mem_cons_self c t)
    have hnt : ')' ∉ t := fun h => hna (List.mem_cons_of_mem c h)
    rw [List.cons_append,
      takeToClose_cons_skip esc m prev c (t ++ s) (fun h => hc h.1),
      ih (m - 1) c s hnt]
    rw [List.getLastD_cons, List.length_cons]
    have : m - 1 - t.length = m - (t.length + 1) := by omega
    rw [this]
    rcases takeToClose esc (m - (t.length + 1)) (t.getLastD c) s
      with _ | ⟨b, r⟩ <;> simp

/-- C8: in the escape-aware close-delimiter scanner shared by
`KeyCap.Pattern`, `KMonadConfig.LayoutSection` and the description
pattern (all three call `takeToClose` with `esc = true` through their
`wsThen`), a literal `')'` preceded by the backslash escape marker does
not terminate the body: the extracted body extends past the escaped
parenthesis up to the next unescaped `')'`.  Here `a` is the body part
before the escaped parenthesis and `b` the part after it, neither
containing a `')'` of its own, and `b` not ending in an escape
marker. -/
theorem c8_escaped_paren (a b r : List Char) (prev : Char)
    (ha : ')' ∉ a) (hb : ')' ∉ b) (hlast : b.getLastD ')' ≠ '\\') :
    takeToClose true 1 prev (a ++ '\\' :: ')' :: (b ++ ')' :: r)) =
      some (a ++ '\\' :: ')' :: b, r) := by
  rw [takeToClose_append_free true a 1 prev _ ha]
  rw [takeToClose_cons_skip true (1 - a.length) (a.getLastD prev) '\\' _
      (fun h => by exact absurd h.1 (by decide))]
  have h2 : ¬((')' : Char) = ')' ∧
      ((true : Bool) = false ∨ ('\\' : Char) ≠ '\\') ∧ 1 - a.length - 1 = 0) := by
    rintro ⟨-, h | h, -⟩
    · exact Bool.noConfusion h
    · exact h rfl
  rw [takeToClose_cons_skip true (1 - a.length - 1) '\\' ')' _ h2]
  rw [takeToClose_append_free true b (1 - a.length - 1 - 1) ')' _ hb]
  have h3 : 1 - a.length - 1 - 1 - b.length = 0 := by omega
  rw [h3, takeToClose_cons_close true (b.getLastD ')') r (Or.inr hlast)]
  simp

/-- C8, witness: the scanner applied to the body
`ab\)cd)xyz` (after the separator whitespace, whose last character is
the look-behind seed `' '`) extends past the escaped parenthesis and
closes at the unescaped one. -/
theorem c8_escaped_paren_witness :
    takeToClose true 1 ' ' "ab\\)cd)xyz".toList =
      some ("ab\\)cd".toList, "xyz".toList) := by
  have h := c8_escaped_paren "ab".toList "cd".toList "xyz".toList ' '
    (by decide) (by decide) (by decide)
  exact h

/-! ## Claims C4 and C5: keycap / colors construction -/

/-- The simultaneous fold of `mkMaps` splits into its two map
components. -/
theorem mkMaps_proj (rows colors : List (List String)) :
    mkMaps rows colors =
      ((cellList rows colors).foldl
        (fun m c => dictInsert m c.1 c.2.1) [],
       (cellList rows colors).foldl
        (fun m c => dictInsert m c.1 c.2.2) []) := by
  unfold mkMaps
  generalize cellList rows colors = l
  suffices h : ∀ (l : List (String × Nat × String))
      (m1 : List (String × Nat)) (m2 : List (String × String)),
      l.foldl (fun maps cell =>
        (dictInsert maps.1 cell.1 cell.2.1,
         dictInsert maps.2 cell.1 cell.2.2)) (m1, m2) =
      (l.foldl (fun m c => dictInsert m c.1 c.2.1) m1,
       l.foldl (fun m c => dictInsert m c.1 c.2.2) m2) from h l [] []
  intro l
  induction l with
  | nil => intro m1 m2; rfl
  | cons hd t ih => intro m1 m2; simp only [List.foldl_cons, ih]

/-- The nested loop of lines 205-209 skips the empty marker: no
recorded cell has key `'_'`. -/
theorem cellList_no_underscore (rows colors : List (List String)) :
    ∀ p ∈ cellList rows colors, p.1 ≠ "_" := by
  intro p hp
  simp only [cellList, List.mem_flatten, List.mem_map] at hp
  obtain ⟨l, ⟨rc, _, rfl⟩, hpl⟩ := hp
  simp only [List.mem_filterMap] at hpl
  obtain ⟨cc, _, hcc⟩ := hpl
  by_cases h : cc.2 = "_"
  · simp [h] at hcc
  · rw [if_pos h] at hcc
    injection hcc with h3
    simpa [← h3] using h

/-- The empty marker is never a key of the derived slot map. -/
theorem mkMaps_no_underscore (rows colors : List (List String)) :
    dictGet "_" (mkMaps rows colors).1 = none := by
  have hnone : (cellList rows colors).reverse.find?
      (fun p => p.1 = "_") = none := by
    rw [List.find?_eq_none]
    intro x hx
    simp only [decide_eq_true_eq]
    exact cellList_no_underscore rows colors x (List.mem_reverse.mp hx)
  have h := dictGet_foldl_dictInsert (fun c : String × Nat × String => c.1)
    (fun c => c.2.1) (cellList rows colors) [] "_"
  rw [hnone] at h
  rw [mkMaps_proj]
  exact h

/-- C4: during `KeyCap` construction, once the keycap grid itself has
been found and passed its shape check, an *absent* colors declaration
records the warning, substitutes the all-`#000000` 4x3 default grid and
does not fail; a *present* colors declaration whose parsed grid is not
exactly 4 rows of 3 columns aborts with the malformed-shape error of
line 193. -/
theorem c4_colors_handling (data : String) (body rest : List Char)
    (h1 : searchAt matchKeycapAt data.toList = some (body, rest))
    (h2 : shapeOk (parseRows (String.mk body)) = true) :
    (searchAt matchColorsAt data.toList = none →
      KeyCap.init data =
        .ok (⟨parseRows (String.mk body),
              (mkMaps (parseRows (String.mk body)) defaultColors).1,
              (mkMaps (parseRows (String.mk body)) defaultColors).2⟩, true) ∧
      (defaultColors.length = 4 ∧
        defaultColors.all (fun row => row.length = 3 ∧
          row.all (fun c => c = "#000000")))) ∧
    (∀ cbody crest,
      searchAt matchColorsAt data.toList = some (cbody, crest) →
      shapeOk (parseRows (String.mk cbody)) = false →
      KeyCap.init data = .error colorsShapeMsg) := by
  constructor
  · intro hc
    refine ⟨?_, by decide⟩
    unfold KeyCap.init
    rw [h1]
    dsimp only
    have hc2 : searchAt matchColorsAt data.data = none := hc
    simp [h2, hc2]
  · intro cbody crest hc hcs
    unfold KeyCap.init
    rw [h1]
    dsimp only
    have hc2 : searchAt matchColorsAt data.data = some (cbody, crest) := hc
    simp [h2, hc2, hcs]

/-- C4, witness: a hardware block with a valid keycap grid and no
colors declaration constructs with the warning and the default maps; a
block whose colors declaration has a 2-column row aborts with the
malformed-shape error. -/
theorem c4_colors_handling_witness :
    KeyCap.init "(keycap\n a b c\n d e f\n g h i\n j k l\n)" =
      .ok (⟨parseRows "a b c\n d e f\n g h i\n j k l\n",
            (mkMaps (parseRows "a b c\n d e f\n g h i\n j k l\n")
              defaultColors).1,
            (mkMaps (parseRows "a b c\n d e f\n g h i\n j k l\n")
              defaultColors).2⟩, true) ∧
    KeyCap.init
        "(keycap\n a b c\n d e f\n g h i\n j k l\n)\n(colors #000000 #000000)" =
      .error colorsShapeMsg := by
  constructor
  · have h := ((c4_colors_handling "(keycap\n a b c\n d e f\n g h i\n j k l\n)"
      "a b c\n d e f\n g h i\n j k l\n".toList [] (by decide) (by decide)).1
      (by decide)).1
    exact h
  · exact (c4_colors_handling
      "(keycap\n a b c\n d e f\n g h i\n j k l\n)\n(colors #000000 #000000)"
      "a b c\n d e f\n g h i\n j k l\n".toList
      "\n(colors #000000 #000000)".toList (by decide) (by decide)).2
      "#000000 #000000".toList [] (by decide) (by decide)

/-- C5: `KeyCap` construction requires the keycap declaration — absent,
it aborts with the missing-section error of line 182; present with a
parsed grid that is not exactly 4 rows of 3 columns, it aborts with the
malformed-shape error of line 187; otherwise (with the colors
declaration absent or well-shaped, the case governed by C4) it
succeeds, its grid is the parsed 4x3 grid, and the `'_'` empty marker
is never given a slot. -/
theorem c5_keycap_required (data : String) :
    (searchAt matchKeycapAt data.toList = none →
      KeyCap.init data = .error keycapMissingMsg) ∧
    (∀ body rest,
      searchAt matchKeycapAt data.toList = some (body, rest) →
      shapeOk (parseRows (String.mk body)) = false →
      KeyCap.init data = .error keycapShapeMsg) ∧
    (∀ body rest,
      searchAt matchKeycapAt data.toList = some (body, rest) →
      shapeOk (parseRows (String.mk body)) = true →
      (searchAt matchColorsAt data.toList = none ∨
        ∃ cbody crest,
          searchAt matchColorsAt data.toList = some (cbody, crest) ∧
          shapeOk (parseRows (String.mk cbody)) = true) →
      ∃ kc warned, KeyCap.init data = .ok (kc, warned) ∧
        kc.rows = parseRows (String.mk body) ∧
        dictGet "_" kc.layermap = none) := by
  refine ⟨?_, ?_, ?_⟩
  · intro h
    unfold KeyCap.init
    rw [h]
  · intro body rest h1 h2
    unfold KeyCap.init
    rw [h1]
    dsimp only
    simp [h2]
  · intro body rest h1 h2 h3
    unfold KeyCap.init
    rw [h1]
    dsimp only
    rcases h3 with h3 | ⟨cbody, crest, h3, h4⟩
    · have h3' : searchAt matchColorsAt data.data = none := h3
      refine ⟨⟨parseRows (String.mk body),
          (mkMaps (parseRows (String.mk body)) defaultColors).1,
          (mkMaps (parseRows (String.mk body)) defaultColors).2⟩, true,
        ?_, rfl, mkMaps_no_underscore _ _⟩
      simp [h2, h3']
    · have h3' : searchAt matchColorsAt data.data = some (cbody, crest) := h3
      refine ⟨⟨parseRows (String.mk body),
          (mkMaps (parseRows (String.mk body))
            (parseRows (String.mk cbody))).1,
          (mkMaps (parseRows (String.mk body))
            (parseRows (String.mk cbody))).2⟩, false,
        ?_, rfl, mkMaps_no_underscore _ _⟩
      simp [h2, h3', h4]

/-- C5, witness: the three hypotheses discharged at concrete inputs —
no keycap declaration, a 3-row keycap declaration, and a well-formed
one. -/
theorem c5_keycap_required_witness :
    KeyCap.init "no declarations here" = .error keycapMissingMsg ∧
    KeyCap.init "(keycap a b c\nd e f\ng h i)" = .error keycapShapeMsg ∧
    ∃ kc warned,
      KeyCap.init "(keycap\n a b c\n d e f\n g h i\n j k l\n)" =
        .ok (kc, warned) := by
  refine ⟨(c5_keycap_required "no declarations here").1 (by decide), ?_, ?_⟩
  · exact (c5_keycap_required "(keycap a b c\nd e f\ng h i)").2.1
      "a b c\nd e f\ng h i".toList [] (by decide) (by decide)
  · obtain ⟨kc, warned, h, -, -⟩ :=
      (c5_keycap_required "(keycap\n a b c\n d e f\n g h i\n j k l\n)").2.2
      "a b c\n d e f\n g h i\n j k l\n".toList [] (by decide) (by decide)
      (Or.inl (by decide))
    exact ⟨kc, warned, h⟩

/-! ## Claim C10: duplicate tokens in the keycap grid -/

/-- `dictGet_foldl_dictInsert` specialised to the slot component of the
recorded cells. -/
theorem dictGet_foldl_slot (l : List (String × Nat × String))
    (init : List (String × Nat)) (k : String) :
    dictGet k (l.foldl (fun m c => dictInsert m c.1 c.2.1) init) =
      (l.reverse.find? (fun p => p.1 = k)).elim
        (dictGet k init) (fun p => some p.2.1) :=
  dictGet_foldl_dictInsert (fun c => c.1) (fun c => c.2.1) l init k

/-- `dictGet_foldl_dictInsert` specialised to the color component of
the recorded cells. -/
theorem dictGet_foldl_color (l : List (String × Nat × String))
    (init : List (String × String)) (k : String) :
    dictGet k (l.foldl (fun m c => dictInsert m c.1 c.2.2) init) =
      (l.reverse.find? (fun p => p.1 = k)).elim
        (dictGet k init) (fun p => some p.2.2) :=
  dictGet_foldl_dictInsert (fun c => c.1) (fun c => c.2.2) l init k

/-- C10: a non-empty token appearing at more than one cell of the 4x3
keycap grid does not fail construction; the token's recorded slot and
color are those of its *last* occurrence in the row-major scan order of
the nested loop (later `dict` assignments overwrite earlier ones).  The
first conjunct states that the recorded slot/color of any token is the
one of the last matching cell in the row-major cell enumeration; the
second states that construction succeeds regardless of duplicates (the
shape checks are the only failure conditions). -/
theorem c10_duplicate_last_wins :
    (∀ rows colors t pr,
      (cellList rows colors).reverse.find? (fun p => p.1 = t) = some pr →
      dictGet t (mkMaps rows colors).1 = some pr.2.1 ∧
      dictGet t (mkMaps rows colors).2 = some pr.2.2) ∧
    (∀ data body rest,
      searchAt matchKeycapAt data.toList = some (body, rest) →
      shapeOk (parseRows (String.mk body)) = true →
      searchAt matchColorsAt data.toList = none →
      KeyCap.init data = .ok
        (⟨parseRows (String.mk body),
          (mkMaps (parseRows (String.mk body)) defaultColors).1,
          (mkMaps (parseRows (String.mk body)) defaultColors).2⟩, true)) := by
  constructor
  · intro rows colors t pr hfind
    constructor
    · have h := dictGet_foldl_slot (cellList rows colors) [] t
      rw [hfind] at h
      rw [mkMaps_proj]
      exact h
    · have h := dictGet_foldl_color (cellList rows colors) [] t
      rw [hfind] at h
      rw [mkMaps_proj]
      exact h
  · intro data body rest h1 h2 h3
    unfold KeyCap.init
    rw [h1]
    dsimp only
    have h3' : searchAt matchColorsAt data.data = none := h3
    simp [h2, h3']

/-- C10, witness: a grid in which `x` occupies both cell (0,0) (slot 0)
and cell (1,2) (slot 7): construction succeeds and `x` is recorded at
slot 7 with the (default) color of its last occurrence. -/
theorem c10_duplicate_last_wins_witness :
    ∃ kc, KeyCap.init "(keycap\n x b c\n d e x\n g h i\n j k l\n)" =
        .ok (kc, true) ∧
      dictGet "x" kc.layermap = some 7 ∧
      dictGet "x" kc.colormap = some "#000000" := by
  refine ⟨_, c10_duplicate_last_wins.2
    "(keycap\n x b c\n d e x\n g h i\n j k l\n)"
    "x b c\n d e x\n g h i\n j k l\n".toList []
    (by decide) (by decide) (by decide), ?_, ?_⟩
  · exact (c10_duplicate_last_wins.1
      (parseRows "x b c\n d e x\n g h i\n j k l\n") defaultColors
      "x" ("x", 7, "#000000") (by decide)).1
  · exact (c10_duplicate_last_wins.1
      (parseRows "x b c\n d e x\n g h i\n j k l\n") defaultColors
      "x" ("x", 7, "#000000") (by decide)).2

/-! ## Claim C7: later label declarations override earlier ones -/

/-- `dictGet_foldl_dictInsert` specialised to alias-table entries. -/
theorem dictGet_foldl_entries (l : List (String × String))
    (init : List (String × String)) (k : String) :
    dictGet k (l.foldl (fun m p => dictInsert m p.1 p.2) init) =
      (l.reverse.find? (fun p => p.1 = k)).elim
        (dictGet k init) (fun p => some p.2) :=
  dictGet_foldl_dictInsert (fun p => p.1) (fun p => p.2) l init k

/-- C7, counterexample.  Two label declarations for `q`, the later one
declaring the replacement text `"b"`: the later text does overwrite the
earlier one in the alias table, but the subsequent `translate` call
returns `"B"` — the substituted value upper-cased by the
single-alphabetic-character rule of line 235 — not the later text
`"b"` the claim promises. -/
theorem c7_alias_override_counterexample :
    dictGet "q" (importLabels kmonadAliases "(label q aaa) (label q b)") =
      some "b" ∧
    kcTranslate (importLabels kmonadAliases "(label q aaa) (label q b)") "q" =
      "B" ∧
    ("B" : String) ≠ "b" :=
  ⟨by decide, rfl, by decide⟩

/-- C7, amended: when several label declarations for the same name are
parsed from the hardware section, the later declaration's replacement
text overwrites the earlier one in the alias table (the table lookup
returns the last declared text), and subsequent `translate` calls for
that name return the later text *as transformed by the
post-substitution rules* — i.e. exactly the later text whenever that
text is not a single alphabetic character and not `XX`. -/
theorem c7_alias_override (aliases : List (String × String)) (data : String)
    (n : String) (pr : String × String)
    (hfind : (labelDecls data).reverse.find? (fun p => p.1 = n) = some pr) :
    dictGet n (importLabels aliases data) = some pr.2 ∧
    (¬(pr.2.length = 1 ∧ pr.2.toList.all pyIsAlpha = true) → pr.2 ≠ "XX" →
      kcTranslate (importLabels aliases data) n = pr.2) := by
  have h := dictGet_foldl_entries (labelDecls data) aliases n
  rw [hfind] at h
  rw [importLabels]
  refine ⟨h, fun hn hx => ?_⟩
  unfold kcTranslate
  rw [h]
  dsimp only [Option.elim, Option.getD]
  rw [if_neg hn, if_neg hx]

/-- C7, amended, witness: `(label q aaa)` then `(label q bb)` — the
table holds `bb` and `translate` returns `bb`. -/
theorem c7_alias_override_witness :
    dictGet "q" (importLabels kmonadAliases "(label q aaa) (label q bb)") =
      some "bb" ∧
    kcTranslate (importLabels kmonadAliases "(label q aaa) (label q bb)") "q" =
      "bb" := by
  obtain ⟨h1, h2⟩ := c7_alias_override kmonadAliases
    "(label q aaa) (label q bb)" "q" ("q", "bb") (by decide)
  exact ⟨h1, h2 (by decide) (by decide)⟩

/-! ## Claim C1: label placement -/

/-- A `(layer, token)` item whose *layer name* has no slot leaves the
slot array unchanged. -/
theorem labStep_skip (kc : KeyCapT) (aliases : List (String × String))
    (lab : List String) (layer : String) (v : Option String)
    (h : dictGet layer kc.layermap = none) :
    labStep kc aliases lab (layer, v) = lab := by
  rcases v with _ | key
  · rfl
  · simp only [labStep]
    by_cases hk : key ≠ ""
    · simp [hk, h]
    · simp [hk]

/-- `labStep` never changes the slot count. -/
theorem labStep_length (kc : KeyCapT) (aliases : List (String × String))
    (lab : List String) (pair : String × Option String) :
    (labStep kc aliases lab pair).length = lab.length := by
  rcases pair with ⟨layer, _ | key⟩
  · rfl
  · simp only [labStep]
    by_cases hk : key ≠ ""
    · rcases hp : dictGet layer kc.layermap with _ | p <;> simp [hk, hp]
    · simp [hk]

/-- The fold of `KeyCap.label` never changes the slot count. -/
theorem foldl_labStep_length (kc : KeyCapT) (aliases : List (String × String))
    (keys : List (String × Option String)) :
    ∀ lab : List String,
      (keys.foldl (labStep kc aliases) lab).length = lab.length := by
  induction keys with
  | nil => intro lab; rfl
  | cons hd t ih =>
    intro lab
    rw [List.foldl_cons, ih, labStep_length]

/-- Later items that do not write slot `p` leave slot `p` unchanged. -/
theorem foldl_labStep_getD_eq (kc : KeyCapT) (aliases : List (String × String))
    (p : Nat) (post : List (String × Option String)) :
    ∀ lab : List String,
    (∀ q ∈ post, ∀ t', q.2 = some t' → t' ≠ "" →
      dictGet q.1 kc.layermap ≠ some p) →
    (post.foldl (labStep kc aliases) lab).getD p "" = lab.getD p "" := by
  induction post with
  | nil => intro lab _; rfl
  | cons hd t ih =>
    intro lab hpost
    rw [List.foldl_cons,
      ih _ (fun q hq => hpost q (List.mem_cons_of_mem hd hq))]
    rcases hd with ⟨layer, _ | key⟩
    · rfl
    · simp only [labStep]
      by_cases hk : key ≠ ""
      · rw [if_pos hk]
        rcases hp : dictGet layer kc.layermap with _ | p'
        · simp only [hp]
        · simp only [hp]
          have hne : p' ≠ p := fun h =>
            hpost (layer, some key) (List.mem_cons_self _ _) key rfl hk
              (hp.trans (congrArg some h))
          rw [List.getD_eq_getElem?_getD, List.getD_eq_getElem?_getD,
            List.getElem?_set_ne hne]
      · rw [if_neg hk]

/-- C1, counterexample.  A keycap grid declaring `nav` at cell (0,0),
and the single pair `(layer "nav", token "zz")`.  The claim says the
pair is placed by looking up the *token's* slot and that tokens not
present in the keycap grid (like `zz`) are silently skipped with no
visible label; but `label` (line 216) looks the *layer name* up in the
grid-derived map, so the token `zz` is rendered at slot 0 and the
result differs from the claimed one. -/
theorem c1_label_counterexample :
    ∃ kc, KeyCap.init "(keycap\n nav _ _\n _ _ _\n _ _ _\n _ _ _\n)" =
        .ok (kc, true) ∧
      kcLabel kc kmonadAliases [("nav", some "zz")] = "\"zz\"" ∧
      kcLabelSpec kc kmonadAliases [("nav", some "zz")] = "\"\"" ∧
      kcLabel kc kmonadAliases [("nav", some "zz")] ≠
        kcLabelSpec kc kmonadAliases [("nav", some "zz")] := by
  refine ⟨⟨parseRows "nav _ _\n _ _ _\n _ _ _\n _ _ _\n",
    (mkMaps (parseRows "nav _ _\n _ _ _\n _ _ _\n _ _ _\n") defaultColors).1,
    (mkMaps (parseRows "nav _ _\n _ _ _\n _ _ _\n _ _ _\n") defaultColors).2⟩,
    rfl, by decide, by decide, by decide⟩

/-- C1, amended: (i) the token at grid cell `(r, c)` is recorded in
row-major order as mapping to slot `label_pos (r, c)` and to
`colors[r][c]`; (ii) a `(layer, token)` pair contributes nothing when
the *layer name* is not a key of the grid-derived slot map (silently
skipped); (iii) a `(layer, token)` pair with a non-empty token whose
layer name has slot `p` (and which no later pair overwrites) places the
translated, escape-stripped token at slot `p`.  The lookup key is the
layer name — the keycap grid holds layer names, per the source comment
"Put the layer name in the correspondign position" (line 160) — not
the token. -/
theorem c1_label_lookup :
    (∀ (rows colors : List (List String)) r c row tok,
      rows[r]? = some row → row[c]? = some tok → tok ≠ "_" →
      (tok, label_pos r c, (colors.getD r []).getD c "") ∈
        cellList rows colors) ∧
    (∀ kc aliases pre post layer v, dictGet layer kc.layermap = none →
      labSlots kc aliases (pre ++ (layer, v) :: post) =
        labSlots kc aliases (pre ++ post)) ∧
    (∀ kc aliases pre post layer t p, t ≠ "" →
      dictGet layer kc.layermap = some p → p < 12 →
      (∀ q ∈ post, ∀ t', q.2 = some t' → t' ≠ "" →
        dictGet q.1 kc.layermap ≠ some p) →
      (labSlots kc aliases (pre ++ (layer, some t) :: post)).getD p "" =
        procKey aliases t) := by
  refine ⟨?_, ?_, ?_⟩
  · intro rows colors r c row tok hr hc htok
    simp only [cellList, List.mem_flatten, List.mem_map]
    refine ⟨(row.enum.filterMap (fun cc =>
      if cc.2 ≠ "_" then
        some (cc.2, label_pos r cc.1, ((colors.getD r []).getD cc.1 ""))
      else none)), ⟨(r, row), ?_, rfl⟩, ?_⟩
    · exact List.mk_mem_enum_iff_getElem?.mpr hr
    · simp only [List.mem_filterMap]
      exact ⟨(c, tok), List.mk_mem_enum_iff_getElem?.mpr hc,
        by rw [if_pos htok]⟩
  · intro kc aliases pre post layer v h
    unfold labSlots
    rw [List.foldl_append, List.foldl_append, List.foldl_cons,
      labStep_skip kc aliases _ layer v h]
  · intro kc aliases pre post layer t p ht hp hlt hpost
    unfold labSlots
    rw [List.foldl_append, List.foldl_cons]
    rw [foldl_labStep_getD_eq kc aliases p post _ hpost]
    have hstep : labStep kc aliases
        (pre.foldl (labStep kc aliases) (List.replicate 12 "")) (layer, some t)
        = (pre.foldl (labStep kc aliases) (List.replicate 12 "")).set p
            (procKey aliases t) := by
      simp only [labStep]
      simp [ht, hp]
    rw [hstep]
    have hlen : (pre.foldl (labStep kc aliases)
        (List.replicate 12 "")).length = 12 := by
      rw [foldl_labStep_length]
      simp
    rw [List.getD_eq_getElem?_getD, List.getElem?_set_self (by omega)]
    rfl

/-- C1, amended, witness: all three conjuncts applied at concrete
inputs — the `nav` cell of a grid is recorded at slot 0; a pair whose
layer is absent from the map contributes nothing; the pair
`("nav", "f1")` places the translation of `f1` at slot 0. -/
theorem c1_label_lookup_witness :
    (("nav", (0 : Nat), "#000000") ∈
      cellList [["nav", "_", "_"], ["_", "_", "_"],
                ["_", "_", "_"], ["_", "_", "_"]] defaultColors) ∧
    labSlots ⟨[["nav", "_", "_"]], [("nav", 0)], [("nav", "#000000")]⟩
        kmonadAliases [("zz", some "a")] =
      labSlots ⟨[["nav", "_", "_"]], [("nav", 0)], [("nav", "#000000")]⟩
        kmonadAliases [] ∧
    (labSlots ⟨[["nav", "_", "_"]], [("nav", 0)], [("nav", "#000000")]⟩
        kmonadAliases [("nav", some "f1")]).getD 0 "" =
      procKey kmonadAliases "f1" := by
  refine ⟨?_, ?_, ?_⟩
  · exact c1_label_lookup.1
      [["nav", "_", "_"], ["_", "_", "_"], ["_", "_", "_"], ["_", "_", "_"]]
      defaultColors 0 0 ["nav", "_", "_"] "nav" rfl rfl (by decide)
  · exact c1_label_lookup.2.1
      ⟨[["nav", "_", "_"]], [("nav", 0)], [("nav", "#000000")]⟩
      kmonadAliases [] [] "zz" (some "a") (by decide)
  · exact c1_label_lookup.2.2
      ⟨[["nav", "_", "_"]], [("nav", 0)], [("nav", "#000000")]⟩
      kmonadAliases [] [] "nav" "f1" 0 (by decide) (by decide) (by omega)
      (fun q hq => absurd hq (List.not_mem_nil q))

/-! ## Claim C2: the end-to-end example -/

/-- The end-to-end input of the claim: one `defsrc` whose first row is
`a b c` followed by three rows of `_ _ _`, a `deflayer nav` whose first
row is `F1 F2 F3`, and a hardware section whose keycap grid has `a` at
(0,0) and `b` at (0,1), with no colors declaration. -/
def c2Input : String :=
  "(defsrc\n  a b c\n  _ _ _\n  _ _ _\n  _ _ _\n)\n\n(deflayer nav\n  F1 F2 F3\n)\n\n<hardware-layout>\n(keycap\n  a b _\n  _ _ _\n  _ _ _\n  _ _ _\n)\n</hardware-layout>\n"

/-- What the pipeline actually renders for `c2Input`: the header entry
with the all-black colors of slots 0 and 8, four row groups whose key
labels are all the *empty* quoted string, and the footer.  No token of
any layer appears: the slot lookup of `label` is keyed by layer name,
and neither `defsrc` nor `nav` occurs in the keycap grid `a b _ / ...`,
so every (layer, token) pair is skipped. -/
def c2Expected : String :=
  "[\x7ba:0, y:-1, t:\"#000000\\n\\n\\n\\n\\n\\n\\n\\n#000000\"\x7d],\n[\"\",\"\",\"\"],\n[\"\",\"\",\"\"],\n[\"\",\"\",\"\"],\n[\"\",\"\",\"\"],\n[\x7bf:4,w:20,h:3,d:true,t:\"#333333\"\x7d,\"/path/kbd.kbd<br /><br />\"]"

/-- Substring test: the needle occurs contiguously somewhere in the
haystack. -/
def hasSub (needle : List Char) : List Char → Bool
  | [] => needle.isEmpty
  | c :: rest => (litAfter? needle (c :: rest)).isSome || hasSub needle rest

set_option maxRecDepth 8192 in
/-- C2, counterexample.  The claim's input renders with *no* label
containing `F1` at all (in particular no `"A\nF1"` at slot 0 and no
`"B\nF2"` at slot 8): the keycap grid holds key tokens `a`, `b`, but
`label` looks up *layer names* (`defsrc`, `nav`), which are not in the
grid, so every key label is the empty quoted string. -/
theorem c2_end_to_end_counterexample :
    KMonadConfig.layout "/path/kbd.kbd" c2Input = .ok c2Expected ∧
    hasSub "F1".toList c2Expected.toList = false :=
  ⟨rfl, by decide⟩

set_option maxRecDepth 8192 in
/-- C2, amended: for the claim's input, the rendered output is exactly
`c2Expected` — a header entry carrying the all-black colors string, a
first row-group (and every other row-group) containing only
empty-quoted key labels (`["","",""]`), and no `c`/`F3` pair anywhere
(indeed no `F3`, and no layer token at all, appears in any label). -/
theorem c2_end_to_end :
    KMonadConfig.layout "/path/kbd.kbd" c2Input = .ok c2Expected ∧
    hasSub "t:\"#000000\\n\\n\\n\\n\\n\\n\\n\\n#000000\"".toList
      c2Expected.toList = true ∧
    hasSub "[\"\",\"\",\"\"]".toList c2Expected.toList = true ∧
    hasSub "F3".toList c2Expected.toList = false :=
  ⟨rfl, by decide, by decide, by decide⟩
